import Mathlib

/-!
Shallow embedding of `src/visualization/dsm_visualizer/data_sources/process_monitor.py`
(the Process Orchestration & Event-Stream Extraction subsystem of UserLevel-DSM).

The embedding covers:
* the regex pattern table `PATTERNS` and the line classifier `parse_line`
  (lines 57-173 of the source).  Each regex used there is a sequence of
  literal runs and greedy character-class captures where every class is
  immediately followed by a literal whose first character lies outside the
  class (']' after `\d+`, ' ' after `[\d.]+`, end-of-pattern after `\w+`),
  so Python's backtracking search is equivalent to leftmost-start,
  maximal-munch matching, which is what `searchToks` implements.
* Python's `int()` on a `\d+` capture (never fails) and `float()` on a
  `[\d.]+` capture, which raises `ValueError` unless the capture has at
  most one '.' and at least one digit; `parse_line` therefore returns
  `Except String (Option ProcessEvent)`, the `.error` case modelling a
  raised exception escaping `parse_line`.
* the `GameOfLifeMonitor` state (`processes`, `output_threads`,
  `event_queue`, `running`, `current_generation`, `partition_info`) with
  Python-dict semantics (insertion order, in-place update) as association
  lists, and the operations `_read_output` (per-line body, `processLine`),
  `start`, `stop`, `get_event`, `get_current_generation`.  OS-level
  effects of `stop` (terminate / kill) are recorded as an explicit action
  list `stopActions`.
-/

/-- `EventType` enum from the source. -/
inductive EventType where
  | GENERATION
  | PAGE_FAULTS
  | NETWORK
  | BARRIER
  | INIT
  | COMPLETE
  | ERROR
deriving DecidableEq, Repr

/-- The kind-specific `data` dict of a `ProcessEvent`, one constructor per
dict shape built in `parse_line` / `_read_output`. -/
inductive EventData where
  | generation (generation live_cells : Nat)
  | page_faults (total read write : Nat)
  | network (kb_sent kb_received : ℚ)
  | barrier (barrier action : String)
  | init (start_row end_row : Nat)
  | complete
  | complete_final (final_live_cells : Nat)
  | error (msg : String)
deriving DecidableEq, Repr

/-- `ProcessEvent` dataclass from the source. -/
structure ProcessEvent where
  event_type : EventType
  node_id : Nat
  data : EventData
deriving DecidableEq, Repr

/-- Python's default `str.strip()` whitespace set (ASCII part). -/
def isPySpace (c : Char) : Bool :=
  c = ' ' || c = '\t' || c = '\n' || c = '\x0d' || c = '\x0b' || c = '\x0c'

/-- `str.strip()` on a character list. -/
def stripChars (cs : List Char) : List Char :=
  ((cs.dropWhile isPySpace).reverse.dropWhile isPySpace).reverse

def isDigitChar (c : Char) : Bool := '0' ≤ c && c ≤ '9'

/-- the character class `[\d.]` of the network pattern. -/
def isDecChar (c : Char) : Bool := isDigitChar c || c = '.'

/-- the character class `\w` of the barrier patterns. -/
def isWordChar (c : Char) : Bool :=
  isDigitChar c || ('a' ≤ c && c ≤ 'z') || ('A' ≤ c && c ≤ 'Z') || c = '_'

/-- One token of a pattern: a literal run, or one of the three greedy
capturing groups occurring in `PATTERNS`: `(\d+)`, `([\d.]+)`,
`(BARRIER_\w+)`. -/
inductive Tok where
  | lit (s : List Char)
  | num
  | dec
  | bar
deriving DecidableEq, Repr

/-- Maximal run of characters satisfying `f` (greedy `+` matching). -/
def takeClass (f : Char → Bool) : List Char → List Char × List Char
  | [] => ([], [])
  | c :: cs =>
      if f c then
        let (run, rest) := takeClass f cs
        (c :: run, rest)
      else ([], c :: cs)

/-- Match a literal run at the head of the input, returning the rest. -/
def litMatch : List Char → List Char → Option (List Char)
  | [], cs => some cs
  | _ :: _, [] => none
  | p :: ps, c :: cs => if p = c then litMatch ps cs else none

/-- Match a token list at the start of the input (the rest of the input after
the match is ignored, as `re.search` does not anchor the end), returning
the list of captured groups in order. -/
def matchToks : List Tok → List Char → Option (List (List Char))
  | [], _ => some []
  | .lit s :: ts, cs =>
      match litMatch s cs with
      | none => none
      | some rest => matchToks ts rest
  | .num :: ts, cs =>
      let (run, rest) := takeClass isDigitChar cs
      if run = [] then none
      else (matchToks ts rest).map (run :: ·)
  | .dec :: ts, cs =>
      let (run, rest) := takeClass isDecChar cs
      if run = [] then none
      else (matchToks ts rest).map (run :: ·)
  | .bar :: ts, cs =>
      match litMatch "BARRIER_".toList cs with
      | none => none
      | some cs' =>
          let (run, rest) := takeClass isWordChar cs'
          if run = [] then none
          else (matchToks ts rest).map (("BARRIER_".toList ++ run) :: ·)

/-- `re.search`: try the pattern at each start position from the left; the
leftmost successful start wins. -/
def searchToks (ts : List Tok) : List Char → Option (List (List Char))
  | [] => matchToks ts []
  | c :: cs =>
      match matchToks ts (c :: cs) with
      | some gs => some gs
      | none => searchToks ts cs

/-- `PATTERNS["generation"]`: `\[Node (\d+)\] Generation (\d+): (\d+) live cells`. -/
def generationPat : List Tok :=
  [.lit "[Node ".toList, .num, .lit "] Generation ".toList, .num,
   .lit ": ".toList, .num, .lit " live cells".toList]

/-- `PATTERNS["page_faults"]`: `\[Node (\d+)\] Page faults: (\d+) \(R: (\d+), W: (\d+)\)`. -/
def pageFaultsPat : List Tok :=
  [.lit "[Node ".toList, .num, .lit "] Page faults: ".toList, .num,
   .lit " (R: ".toList, .num, .lit ", W: ".toList, .num, .lit ")".toList]

/-- `PATTERNS["network"]`: `\[Node (\d+)\] Network: ([\d.]+) KB sent, ([\d.]+) KB received`. -/
def networkPat : List Tok :=
  [.lit "[Node ".toList, .num, .lit "] Network: ".toList, .dec,
   .lit " KB sent, ".toList, .dec, .lit " KB received".toList]

/-- `PATTERNS["barrier_wait"]`: `\[Node (\d+)\] Waiting at (BARRIER_\w+)`. -/
def barrierWaitPat : List Tok :=
  [.lit "[Node ".toList, .num, .lit "] Waiting at ".toList, .bar]

/-- `PATTERNS["barrier_pass"]`: `\[Node (\d+)\] Passed (BARRIER_\w+)`. -/
def barrierPassPat : List Tok :=
  [.lit "[Node ".toList, .num, .lit "] Passed ".toList, .bar]

/-- `PATTERNS["dsm_init"]`: `\[Node (\d+)\] DSM initialized`. -/
def dsmInitPat : List Tok :=
  [.lit "[Node ".toList, .num, .lit "] DSM initialized".toList]

/-- `PATTERNS["complete"]`: `\[Node (\d+)\] === Computation Complete ===`. -/
def completePat : List Tok :=
  [.lit "[Node ".toList, .num, .lit "] === Computation Complete ===".toList]

/-- `PATTERNS["partition"]`: `\[Node (\d+)\] Partition: rows \[(\d+), (\d+)\)`. -/
def partitionPat : List Tok :=
  [.lit "[Node ".toList, .num, .lit "] Partition: rows [".toList, .num,
   .lit ", ".toList, .num, .lit ")".toList]

/-- `PATTERNS["final_cells"]`: `\[Node (\d+)\] Final live cells: (\d+)`. -/
def finalCellsPat : List Tok :=
  [.lit "[Node ".toList, .num, .lit "] Final live cells: ".toList, .num]

/-- Python `int()` on a nonempty digit run: always succeeds. -/
def pyInt (cs : List Char) : Nat :=
  cs.foldl (fun acc c => 10 * acc + (c.toNat - '0'.toNat)) 0

/-- Digit-run value with the number of digits, for the fractional part. -/
def decDigits (cs : List Char) : Nat × Nat :=
  cs.foldl (fun (acc : Nat × Nat) c => (10 * acc.1 + (c.toNat - '0'.toNat), acc.2 + 1)) (0, 0)

/-- Python `float()` restricted to strings drawn from `[\d.]+` (the only
strings it is applied to in `parse_line`): succeeds exactly when the string
has at most one '.' and at least one digit, yielding the exact decimal
value; otherwise `float()` raises `ValueError`, modelled as `none`. -/
def pyFloat (cs : List Char) : Option ℚ :=
  if cs.countP (· = '.') ≤ 1 && cs.any isDigitChar then
    match cs.splitOn '.' with
    | [intPart] => some (mkRat (pyInt intPart) 1)
    | [intPart, fracPart] =>
        let (f, k) := decDigits fracPart
        some (mkRat (pyInt intPart * 10 ^ k + f) (10 ^ k))
    | _ => none
  else none

/-- `parse_line` from the source (lines 83-173): strip the line, return
no event when empty, then try `generation`, `page_faults`, `network`,
`barrier_pass`, `partition`, `complete`, `final_cells` in that order,
returning the event of the first pattern that matches.  `.error s` models
the `ValueError` raised by `float(s)` on a bad decimal capture; the
wildcard fallthrough rows of each `match` combine the no-match case with
capture lists of impossible length. -/
def parse_line (line : String) : Except String (Option ProcessEvent) :=
  let cs := stripChars line.toList
  if cs = [] then .ok none
  else
    match searchToks generationPat cs with
    | some (n :: g :: l :: _) =>
        .ok (some ⟨.GENERATION, pyInt n, .generation (pyInt g) (pyInt l)⟩)
    | _ =>
    match searchToks pageFaultsPat cs with
    | some (n :: t :: r :: w :: _) =>
        .ok (some ⟨.PAGE_FAULTS, pyInt n, .page_faults (pyInt t) (pyInt r) (pyInt w)⟩)
    | _ =>
    match searchToks networkPat cs with
    | some (n :: s :: r :: _) =>
        (match pyFloat s with
         | none => .error (String.mk s)
         | some qs =>
           match pyFloat r with
           | none => .error (String.mk r)
           | some qr => .ok (some ⟨.NETWORK, pyInt n, .network qs qr⟩))
    | _ =>
    match searchToks barrierPassPat cs with
    | some (n :: b :: _) =>
        .ok (some ⟨.BARRIER, pyInt n, .barrier (String.mk b) "passed"⟩)
    | _ =>
    match searchToks partitionPat cs with
    | some (n :: a :: b :: _) =>
        .ok (some ⟨.INIT, pyInt n, .init (pyInt a) (pyInt b)⟩)
    | _ =>
    match searchToks completePat cs with
    | some (n :: _) => .ok (some ⟨.COMPLETE, pyInt n, .complete⟩)
    | _ =>
    match searchToks finalCellsPat cs with
    | some (n :: f :: _) => .ok (some ⟨.COMPLETE, pyInt n, .complete_final (pyInt f)⟩)
    | _ => .ok none

deriving instance DecidableEq for Except

/-! ## The `GameOfLifeMonitor` state

Python dicts are modelled as association lists with insertion-order
semantics: assigning to an existing key updates it in place, assigning to
a fresh key appends, and `values()` iterates in insertion order. -/

/-- `d[k] = v` on a Python dict. -/
def dictInsert {α : Type} : List (Nat × α) → Nat → α → List (Nat × α)
  | [], k, v => [(k, v)]
  | (k', v') :: rest, k, v =>
      if k' = k then (k, v) :: rest else (k', v') :: dictInsert rest k v

/-- `d.get(k)` / `k in d` on a Python dict. -/
def dictGet {α : Type} : List (Nat × α) → Nat → Option α
  | [], _ => none
  | (k', v') :: rest, k => if k' = k then some v' else dictGet rest k

/-- `d.values()` on a Python dict. -/
def dictValues {α : Type} (d : List (Nat × α)) : List α := d.map Prod.snd

/-- A `subprocess.Popen` handle: `alive` is `poll() is None`, and
`responds` tells whether the process exits within the 2-second grace
period after `terminate()` (otherwise `stop` escalates to `kill()`). -/
structure ProcessHandle where
  alive : Bool
  responds : Bool
deriving DecidableEq, Repr

/-- The mutable fields of `GameOfLifeMonitor` (`__init__`, lines 220-228):
`processes`, `output_threads` (opaque thread handles), `event_queue`,
`running`, `current_generation`, `partition_info`. -/
structure MonitorState where
  processes : List (Nat × ProcessHandle)
  output_threads : List Unit
  event_queue : List ProcessEvent
  running : Bool
  current_generation : List (Nat × Nat)
  partition_info : List (Nat × (Nat × Nat))
deriving DecidableEq, Repr

/-- The freshly-constructed monitor state. -/
def initState : MonitorState := ⟨[], [], [], false, [], []⟩

/-- One iteration of the loop body of `_read_output` (lines 280-312) for a
nonempty `line`, run by the drain thread attached to node `node_id`:
if the shared `running` flag is down the loop breaks without processing;
otherwise the line is classified, a resulting event is put on
`event_queue`, a `GENERATION` event updates `current_generation[node_id]`
(note: keyed by the drain thread's `node_id` argument), and an `INIT`
event carrying `start_row` updates `partition_info[node_id]`.  If
`parse_line` raises, the `except` clause pushes an `ERROR` event for
`node_id` (and the drain thread dies). -/
def processLine (node_id : Nat) (line : String) (s : MonitorState) : MonitorState :=
  if !s.running then s
  else
    match parse_line line with
    | .error msg =>
        { s with event_queue := s.event_queue ++ [⟨.ERROR, node_id, .error msg⟩] }
    | .ok none => s
    | .ok (some event) =>
        let s1 := { s with event_queue := s.event_queue ++ [event] }
        let s2 :=
          match event.event_type, event.data with
          | .GENERATION, .generation g _ =>
              { s1 with current_generation := dictInsert s1.current_generation node_id g }
          | _, _ => s1
        match event.event_type, event.data with
        | .INIT, .init a b =>
            { s2 with partition_info := dictInsert s2.partition_info node_id (a, b) }
        | _, _ => s2

/-- An OS-level action performed on a managed process during `stop`. -/
inductive StopAction where
  | terminate (node : Nat)
  | kill (node : Nat)
deriving DecidableEq, Repr

/-- The OS-level effect of `stop` (lines 392-399): every process with
`poll() is None` receives `terminate()`, escalated to `kill()` when it
does not exit within the grace period. -/
def stopActions (s : MonitorState) : List StopAction :=
  s.processes.flatMap fun np =>
    if np.2.alive then
      if np.2.responds then [.terminate np.1] else [.terminate np.1, .kill np.1]
    else []

/-- `stop()` (lines 388-402): lower `running`, terminate/kill live
processes (recorded separately by `stopActions`), then clear `processes`
and `output_threads`. -/
def stop (s : MonitorState) : MonitorState :=
  { s with running := false, processes := [], output_threads := [] }

/-- The controller is Idle when it manages no processes and no drain
threads and the running flag is down. -/
def isIdle (s : MonitorState) : Prop :=
  s.running = false ∧ s.processes = [] ∧ s.output_threads = []

/-- Does any live process handle remain in the bookkeeping? -/
def hasLiveHandle (s : MonitorState) : Bool :=
  s.processes.any fun np => np.2.alive

/-- The environment `start()` runs against: whether the executable path
exists, the node count, which `Popen` calls raise, and how each spawned
process later reacts to `terminate()`. -/
structure StartConfig where
  exeExists : Bool
  numNodes : Nat
  spawnFails : Nat → Bool
  responds : Nat → Bool

/-- A freshly spawned process handle for node `nid`. -/
def spawnHandle (cfg : StartConfig) (nid : Nat) : ProcessHandle :=
  ⟨true, cfg.responds nid⟩

/-- The worker-spawning loop of `start()` (lines 356-378):
`for node_id in range(1, num_nodes)`, spawn the worker and its drain
thread; an exception propagates to the `except` clause of `start`, which
calls `self.stop()` and returns `False`.  Returns the success flag, the
final state, and the teardown actions performed on failure. -/
def startWorkers (cfg : StartConfig) :
    List Nat → MonitorState → Bool × MonitorState × List StopAction
  | [], s => (true, s, [])
  | nid :: rest, s =>
      if cfg.spawnFails nid then (false, stop s, stopActions s)
      else
        startWorkers cfg rest
          { s with
            processes := dictInsert s.processes nid (spawnHandle cfg nid),
            output_threads := s.output_threads ++ [()] }

/-- `start()` (lines 314-386): fail immediately if the executable does not
exist; otherwise raise `running`, spawn the manager (node 0) and its drain
thread, then the workers in increasing node-id order; any spawn exception
is caught, `stop()` is invoked on everything spawned so far, and `False`
is returned. -/
def start (cfg : StartConfig) (s : MonitorState) : Bool × MonitorState × List StopAction :=
  if !cfg.exeExists then (false, s, [])
  else
    let s0 := { s with running := true }
    if cfg.spawnFails 0 then (false, stop s0, stopActions s0)
    else
      startWorkers cfg (List.range' 1 (cfg.numNodes - 1))
        { s0 with
          processes := dictInsert s0.processes 0 (spawnHandle cfg 0),
          output_threads := s0.output_threads ++ [()] }

/-- The launch order of `start()`: manager node 0, then workers `1..N-1`. -/
def launchOrder (cfg : StartConfig) : List Nat :=
  0 :: List.range' 1 (cfg.numNodes - 1)

/-- The nodes `start()` spawns before hitting the first failing spawn. -/
def spawnedNodes (cfg : StartConfig) : List Nat :=
  (launchOrder cfg).takeWhile fun n => !cfg.spawnFails n

/-- `get_event(timeout)` (lines 404-417): pop the head of the queue, or
report nothing available (`queue.Empty` is caught, never propagated). -/
def get_event (s : MonitorState) : Option ProcessEvent × MonitorState :=
  match s.event_queue with
  | [] => (none, s)
  | e :: rest => (some e, { s with event_queue := rest })

/-- `get_current_generation()` (lines 425-429): `0` when
`current_generation` is empty, else `min` over its values. -/
def get_current_generation (s : MonitorState) : Nat :=
  match dictValues s.current_generation with
  | [] => 0
  | v :: vs => vs.foldl min v

/-- `is_running()` (lines 419-423). -/
def is_running (s : MonitorState) : Bool :=
  s.running && s.processes.any fun np => np.2.alive

/-! ## Spec-side classifier: an ordered list of (matcher, constructor)
pairs evaluated first-match-wins, following the spec's words (§4.1, §6,
§9).  Each matcher bundles one `search` + construct block of
`parse_line`; `some (.error msg)` models the block raising. -/

/-- The generation block of `parse_line` as a matcher. -/
def tryGeneration (cs : List Char) : Option (Except String ProcessEvent) :=
  match searchToks generationPat cs with
  | some (n :: g :: l :: _) =>
      some (.ok ⟨.GENERATION, pyInt n, .generation (pyInt g) (pyInt l)⟩)
  | _ => none

/-- The page-faults block of `parse_line` as a matcher. -/
def tryPageFaults (cs : List Char) : Option (Except String ProcessEvent) :=
  match searchToks pageFaultsPat cs with
  | some (n :: t :: r :: w :: _) =>
      some (.ok ⟨.PAGE_FAULTS, pyInt n, .page_faults (pyInt t) (pyInt r) (pyInt w)⟩)
  | _ => none

/-- The network block of `parse_line` as a matcher. -/
def tryNetwork (cs : List Char) : Option (Except String ProcessEvent) :=
  match searchToks networkPat cs with
  | some (n :: s :: r :: _) =>
      some
        (match pyFloat s with
         | none => .error (String.mk s)
         | some qs =>
           match pyFloat r with
           | none => .error (String.mk r)
           | some qr => .ok ⟨.NETWORK, pyInt n, .network qs qr⟩)
  | _ => none

/-- The barrier-pass block of `parse_line` as a matcher. -/
def tryBarrierPass (cs : List Char) : Option (Except String ProcessEvent) :=
  match searchToks barrierPassPat cs with
  | some (n :: b :: _) =>
      some (.ok ⟨.BARRIER, pyInt n, .barrier (String.mk b) "passed"⟩)
  | _ => none

/-- The partition block of `parse_line` as a matcher. -/
def tryPartition (cs : List Char) : Option (Except String ProcessEvent) :=
  match searchToks partitionPat cs with
  | some (n :: a :: b :: _) =>
      some (.ok ⟨.INIT, pyInt n, .init (pyInt a) (pyInt b)⟩)
  | _ => none

/-- The completion block of `parse_line` as a matcher. -/
def tryComplete (cs : List Char) : Option (Except String ProcessEvent) :=
  match searchToks completePat cs with
  | some (n :: _) => some (.ok ⟨.COMPLETE, pyInt n, .complete⟩)
  | _ => none

/-- The final-cells block of `parse_line` as a matcher. -/
def tryFinalCells (cs : List Char) : Option (Except String ProcessEvent) :=
  match searchToks finalCellsPat cs with
  | some (n :: f :: _) => some (.ok ⟨.COMPLETE, pyInt n, .complete_final (pyInt f)⟩)
  | _ => none

/-- The classifier's pattern/constructor list, in the priority order of
spec §6: Generation, PageFaults, Network, Passed-Barrier, Partition,
Computation-Complete, Final-live-cells. -/
def codeMatchers : List (List Char → Option (Except String ProcessEvent)) :=
  [tryGeneration, tryPageFaults, tryNetwork, tryBarrierPass, tryPartition,
   tryComplete, tryFinalCells]

/-- First-match-wins evaluation of an ordered matcher list (spec §4.1/§9):
return the result of the first matcher that matches; once one matches no
later matcher is tried; no match at all yields no event. -/
def classifyFirst :
    List (List Char → Option (Except String ProcessEvent)) → List Char →
      Except String (Option ProcessEvent)
  | [], _ => .ok none
  | m :: ms, cs =>
      match m cs with
      | some (.ok e) => .ok (some e)
      | some (.error msg) => .error msg
      | none => classifyFirst ms cs

/-- The spec-side classifier: strip, drop empty lines, then first-match-wins
over the ordered pattern list. -/
def classifySpec (line : String) : Except String (Option ProcessEvent) :=
  let cs := stripChars line.toList
  if cs = [] then .ok none else classifyFirst codeMatchers cs

/-! ## Lemmas about the classifier -/

/-- The sequential pattern cascade of `parse_line` is exactly first-match-wins
evaluation of the ordered matcher list of spec §6. -/
lemma parse_line_eq (line : String) : parse_line line = classifySpec line := by
  unfold parse_line classifySpec codeMatchers
  by_cases h : stripChars line.data = []
  · simp [h]
  · simp only [h, if_false, ite_false]
    simp only [classifyFirst, tryGeneration, tryPageFaults, tryNetwork, tryBarrierPass,
      tryPartition, tryComplete, tryFinalCells]
    repeat' split <;> try rfl

/-- A produced event comes from one of the matchers in the list. -/
lemma classifyFirst_ok_some {ms : List (List Char → Option (Except String ProcessEvent))}
    {cs : List Char} {e : ProcessEvent} (h : classifyFirst ms cs = .ok (some e)) :
    ∃ m ∈ ms, m cs = some (.ok e) := by
  induction ms with
  | nil => simp [classifyFirst] at h
  | cons m ms ih =>
      rw [classifyFirst] at h
      rcases hm : m cs with _ | r
      · rw [hm] at h
        obtain ⟨m', hmem, hm'⟩ := ih h
        exact ⟨m', by simp [hmem], hm'⟩
      · rcases r with msg | e'
        · rw [hm] at h; exact absurd h (by simp)
        · rw [hm] at h
          obtain rfl : e' = e := by injection h with h'; injection h'
          exact ⟨m, by simp, hm⟩

/-- A raised exception comes from one of the matchers in the list. -/
lemma classifyFirst_error {ms : List (List Char → Option (Except String ProcessEvent))}
    {cs : List Char} {msg : String} (h : classifyFirst ms cs = .error msg) :
    ∃ m ∈ ms, m cs = some (.error msg) := by
  induction ms with
  | nil => simp [classifyFirst] at h
  | cons m ms ih =>
      rw [classifyFirst] at h
      rcases hm : m cs with _ | r
      · rw [hm] at h
        obtain ⟨m', hmem, hm'⟩ := ih h
        exact ⟨m', by simp [hmem], hm'⟩
      · rcases r with msg' | e'
        · rw [hm] at h
          obtain rfl : msg' = msg := by injection h
          exact ⟨m, by simp, hm⟩
        · rw [hm] at h; exact absurd h (by simp)

/-- When no matcher matches, first-match-wins yields no event. -/
lemma classifyFirst_none {ms : List (List Char → Option (Except String ProcessEvent))}
    {cs : List Char} (h : ∀ m ∈ ms, m cs = none) : classifyFirst ms cs = .ok none := by
  induction ms with
  | nil => rfl
  | cons m ms ih =>
      rw [classifyFirst, h m (by simp)]
      exact ih fun m' hm' => h m' (by simp [hm'])

/-- A matcher that matches at the head of the list decides the result; the
later matchers are never tried. -/
lemma classifyFirst_cons_ok {m : List Char → Option (Except String ProcessEvent)}
    {ms : List (List Char → Option (Except String ProcessEvent))} {cs : List Char}
    {e : ProcessEvent} (h : m cs = some (.ok e)) :
    classifyFirst (m :: ms) cs = .ok (some e) := by
  rw [classifyFirst, h]

/-- A matcher that raises at the head of the list raises for the whole
classifier; the later matchers are never tried. -/
lemma classifyFirst_cons_error {m : List Char → Option (Except String ProcessEvent)}
    {ms : List (List Char → Option (Except String ProcessEvent))} {cs : List Char}
    {msg : String} (h : m cs = some (.error msg)) :
    classifyFirst (m :: ms) cs = .error msg := by
  rw [classifyFirst, h]

/-- Only the network matcher can raise (its `float()` calls). -/
lemma matcher_error_is_network {m : List Char → Option (Except String ProcessEvent)}
    {cs : List Char} {msg : String} (hmem : m ∈ codeMatchers)
    (h : m cs = some (.error msg)) : (searchToks networkPat cs).isSome := by
  simp only [codeMatchers, List.mem_cons, List.not_mem_nil, or_false] at hmem
  rcases hmem with rfl | rfl | rfl | rfl | rfl | rfl | rfl
  · unfold tryGeneration at h; split at h <;> simp_all
  · unfold tryPageFaults at h; split at h <;> simp_all
  · unfold tryNetwork at h
    split at h
    · simp_all
    · simp_all
  · unfold tryBarrierPass at h; split at h <;> simp_all
  · unfold tryPartition at h; split at h <;> simp_all
  · unfold tryComplete at h; split at h <;> simp_all
  · unfold tryFinalCells at h; split at h <;> simp_all

/-- Every event produced by a matcher of the classifier's list whose kind is
`BARRIER` is a barrier-pass event: the action is `"passed"`. -/
lemma matcher_barrier_is_passed {m : List Char → Option (Except String ProcessEvent)}
    {cs : List Char} {e : ProcessEvent} (hmem : m ∈ codeMatchers)
    (h : m cs = some (.ok e)) (hb : e.event_type = .BARRIER) :
    ∃ n b, e = ⟨.BARRIER, n, .barrier b "passed"⟩ := by
  simp only [codeMatchers, List.mem_cons, List.not_mem_nil, or_false] at hmem
  rcases hmem with rfl | rfl | rfl | rfl | rfl | rfl | rfl
  · unfold tryGeneration at h
    split at h
    · obtain rfl : _ = e := by injection h with h'; injection h'
      simp at hb
    · simp_all
  · unfold tryPageFaults at h
    split at h
    · obtain rfl : _ = e := by injection h with h'; injection h'
      simp at hb
    · simp_all
  · unfold tryNetwork at h
    split at h
    · split at h
      · simp at h
      · split at h
        · simp at h
        · obtain rfl : _ = e := by injection h with h'; injection h'
          simp at hb
    · simp_all
  · unfold tryBarrierPass at h
    split at h
    · obtain rfl : _ = e := by injection h with h'; injection h'
      exact ⟨_, _, rfl⟩
    · simp_all
  · unfold tryPartition at h
    split at h
    · obtain rfl : _ = e := by injection h with h'; injection h'
      simp at hb
    · simp_all
  · unfold tryComplete at h
    split at h
    · obtain rfl : _ = e := by injection h with h'; injection h'
      simp at hb
    · simp_all
  · unfold tryFinalCells at h
    split at h
    · obtain rfl : _ = e := by injection h with h'; injection h'
      simp at hb
    · simp_all

/-! ## Lemmas about dicts and folds -/

lemma dictGet_insert_self {α : Type} (d : List (Nat × α)) (k : Nat) (v : α) :
    dictGet (dictInsert d k v) k = some v := by
  induction d with
  | nil => simp [dictInsert, dictGet]
  | cons kv rest ih =>
      obtain ⟨k', v'⟩ := kv
      by_cases h : k' = k
      · simp [dictInsert, h, dictGet]
      · simp [dictInsert, h, dictGet, ih]

lemma dictGet_insert_ne {α : Type} (d : List (Nat × α)) {k n : Nat} (v : α) (h : n ≠ k) :
    dictGet (dictInsert d k v) n = dictGet d n := by
  induction d with
  | nil => simp [dictInsert, dictGet, Ne.symm h]
  | cons kv rest ih =>
      obtain ⟨k', v'⟩ := kv
      by_cases hk : k' = k
      · subst hk
        simp [dictInsert, dictGet, Ne.symm h]
      · simp [dictInsert, hk, dictGet, ih]

lemma mem_dictInsert {α : Type} {d : List (Nat × α)} {k : Nat} {v : α} {np : Nat × α}
    (h : np ∈ dictInsert d k v) : np ∈ d ∨ np = (k, v) := by
  induction d with
  | nil => exact Or.inr (by simpa [dictInsert] using h)
  | cons kv rest ih =>
      obtain ⟨k', v'⟩ := kv
      by_cases hk : k' = k
      · rw [dictInsert, if_pos hk] at h
        rcases List.mem_cons.mp h with rfl | h'
        · exact Or.inr rfl
        · exact Or.inl (List.mem_cons_of_mem _ h')
      · rw [dictInsert, if_neg hk] at h
        rcases List.mem_cons.mp h with rfl | h'
        · exact Or.inl (List.mem_cons_self _ _)
        · rcases ih h' with h'' | h''
          · exact Or.inl (List.mem_cons_of_mem _ h'')
          · exact Or.inr h''

lemma dictInsert_key_mem {α : Type} (d : List (Nat × α)) (k : Nat) (v : α) :
    ∃ p, (k, p) ∈ dictInsert d k v := by
  induction d with
  | nil => exact ⟨v, by simp [dictInsert]⟩
  | cons kv rest ih =>
      obtain ⟨k', v'⟩ := kv
      by_cases hk : k' = k
      · exact ⟨v, by rw [dictInsert, if_pos hk]; exact List.mem_cons_self _ _⟩
      · obtain ⟨p, hp⟩ := ih
        exact ⟨p, by rw [dictInsert, if_neg hk]; exact List.mem_cons_of_mem _ hp⟩

lemma dictInsert_mem_keys {α : Type} {d : List (Nat × α)} {n : Nat} {p : α}
    (k : Nat) (v : α) (h : (n, p) ∈ d) : ∃ p', (n, p') ∈ dictInsert d k v := by
  induction d with
  | nil => cases h
  | cons kv rest ih =>
      obtain ⟨k', v'⟩ := kv
      by_cases hk : k' = k
      · rw [dictInsert, if_pos hk]
        rcases List.mem_cons.mp h with heq | h'
        · obtain rfl : n = k' := congrArg Prod.fst heq
          exact ⟨v, by rw [hk]; exact List.mem_cons_self _ _⟩
        · exact ⟨p, List.mem_cons_of_mem _ h'⟩
      · rw [dictInsert, if_neg hk]
        rcases List.mem_cons.mp h with heq | h'
        · exact ⟨p, heq ▸ List.mem_cons_self _ _⟩
        · obtain ⟨p', hp'⟩ := ih h'
          exact ⟨p', List.mem_cons_of_mem _ hp'⟩

lemma foldl_min_le_init (l : List Nat) (v : Nat) : l.foldl min v ≤ v := by
  induction l generalizing v with
  | nil => simp
  | cons x xs ih => exact le_trans (ih (min v x)) (min_le_left v x)

lemma foldl_min_le_mem (l : List Nat) (v x : Nat) (hx : x ∈ l) : l.foldl min v ≤ x := by
  induction l generalizing v with
  | nil => cases hx
  | cons y ys ih =>
      rcases List.mem_cons.mp hx with rfl | h
      · exact le_trans (foldl_min_le_init ys (min v x)) (min_le_right v x)
      · exact ih (min v y) h

lemma foldl_min_eq_init_or_mem (l : List Nat) (v : Nat) :
    l.foldl min v = v ∨ l.foldl min v ∈ l := by
  induction l generalizing v with
  | nil => exact Or.inl rfl
  | cons y ys ih =>
      rcases ih (min v y) with h | h
      · rw [List.foldl_cons, h]
        by_cases hvy : v ≤ y
        · exact Or.inl (min_eq_left hvy)
        · exact Or.inr (by
            rw [min_eq_right (le_of_not_le hvy)]
            exact List.mem_cons_self _ _)
      · exact Or.inr (List.mem_cons_of_mem _ h)

/-! ## Claim theorems -/

/-- C4: classification evaluates the fixed pattern list in the priority
order Generation, PageFaults, Network, Passed-Barrier, Partition,
Computation-Complete, Final-live-cells, and returns the event of the
first pattern that matches; once a pattern matches no later pattern is
tried, so a line matching several patterns yields the earliest one's
event.  Formally: `parse_line` equals first-match-wins evaluation
(`classifySpec`) of the ordered matcher list `codeMatchers`, and a match
at the head of a matcher list settles the result whatever matchers
follow. -/
theorem c4_first_match_wins_priority_order :
    (∀ line, parse_line line = classifySpec line) ∧
    (∀ (m : List Char → Option (Except String ProcessEvent)) ms cs e,
      m cs = some (.ok e) → classifyFirst (m :: ms) cs = .ok (some e)) :=
  ⟨parse_line_eq, fun _ _ _ _ h => classifyFirst_cons_ok h⟩

/-- Witness for C4 at a concrete input: the generation matcher matches the
literal generation line, so the classifier returns its event no matter
what matchers follow it in the list. -/
theorem c4_first_match_wins_priority_order_witness :
    classifyFirst (tryGeneration :: [tryPageFaults, tryNetwork])
        (stripChars "[Node 0] Generation 10: 423 live cells in partition".toList) =
      .ok (some ⟨.GENERATION, 0, .generation 10 423⟩) :=
  c4_first_match_wins_priority_order.2 tryGeneration [tryPageFaults, tryNetwork]
    (stripChars "[Node 0] Generation 10: 423 live cells in partition".toList)
    ⟨.GENERATION, 0, .generation 10 423⟩ (by decide)

/-- C8: the three known-shape literal lines classify deterministically to
exactly the stated events: the Generation line to
`Generation{node=0, generation=10, liveCells=423}`, the Page-faults line
to `PageFaults{node=1, total=124, read=100, write=24}`, and the Network
line to `Network{node=0, kbSent=45.20, kbReceived=38.10}`. -/
theorem c8_literal_lines_classification :
    parse_line "[Node 0] Generation 10: 423 live cells in partition" =
      .ok (some ⟨.GENERATION, 0, .generation 10 423⟩) ∧
    parse_line "[Node 1] Page faults: 124 (R: 100, W: 24)" =
      .ok (some ⟨.PAGE_FAULTS, 1, .page_faults 124 100 24⟩) ∧
    parse_line "[Node 0] Network: 45.20 KB sent, 38.10 KB received" =
      .ok (some ⟨.NETWORK, 0, .network (45.20 : ℚ) (38.10 : ℚ)⟩) := by
  refine ⟨by decide, by decide, ?_⟩
  have h45 : (45.20 : ℚ) = mkRat 4520 100 := by rw [Rat.mkRat_eq_div]; norm_num
  have h38 : (38.10 : ℚ) = mkRat 3810 100 := by rw [Rat.mkRat_eq_div]; norm_num
  rw [h45, h38]
  decide

/-- C9: the pattern table contains patterns for the "waiting at barrier"
and "DSM initialized" line shapes (they match their example lines), yet
the classifier's match sequence never consults them: both example lines
classify to no event, and universally, every barrier-kind event the
classifier can emit carries action `"passed"` — a waiting-at-barrier
event is never emitted. -/
theorem c9_unreachable_patterns_emit_nothing :
    (searchToks barrierWaitPat
      (stripChars "[Node 0] Waiting at BARRIER_COMPUTE_0...".toList)).isSome = true ∧
    parse_line "[Node 0] Waiting at BARRIER_COMPUTE_0..." = .ok none ∧
    (searchToks dsmInitPat
      (stripChars "[Node 0] DSM initialized successfully".toList)).isSome = true ∧
    parse_line "[Node 0] DSM initialized successfully" = .ok none ∧
    (∀ line e, parse_line line = .ok (some e) → e.event_type = .BARRIER →
      ∃ n b, e = ⟨.BARRIER, n, .barrier b "passed"⟩) := by
  refine ⟨by decide, by decide, by decide, by decide, ?_⟩
  intro line e h hb
  rw [parse_line_eq] at h
  unfold classifySpec at h
  by_cases hemp : stripChars line.toList = []
  · rw [if_pos hemp] at h
    exact absurd h (by simp)
  · rw [if_neg hemp] at h
    obtain ⟨m, hmem, hm⟩ := classifyFirst_ok_some h
    exact matcher_barrier_is_passed hmem hm hb

/-- Witness for C9 at a concrete input: the one barrier event shape the
classifier emits, obtained from a literal barrier-pass line. -/
theorem c9_unreachable_patterns_emit_nothing_witness :
    ∃ n b, (⟨.BARRIER, 2, .barrier "BARRIER_SYNC" "passed"⟩ : ProcessEvent) =
      ⟨.BARRIER, n, .barrier b "passed"⟩ :=
  c9_unreachable_patterns_emit_nothing.2.2.2.2 "[Node 2] Passed BARRIER_SYNC"
    ⟨.BARRIER, 2, .barrier "BARRIER_SYNC" "passed"⟩ (by decide) rfl

/-- C1 fails as stated: `parse_line` can raise.  On the line
`"[Node 0] Network: .. KB sent, 1.0 KB received"` the network pattern's
text matches with decimal capture `".."`, and `float("..")` raises
`ValueError` instead of falling through to later patterns and no-event. -/
theorem c1_counterexample_float_raises :
    parse_line "[Node 0] Network: .. KB sent, 1.0 KB received" = .error ".." := by
  decide

/-- C1 amended: for every input string `parse_line` returns an event or no
event, except that a raised exception is possible exactly on lines whose
stripped text matches the network pattern (a `float()` call on its decimal
capture can raise); an empty or whitespace-only line yields no event, and
a line matching none of the seven consulted patterns yields no event. -/
theorem c1_amended_total_except_network_float (line : String) :
    (stripChars line.toList = [] → parse_line line = .ok none) ∧
    (searchToks generationPat (stripChars line.toList) = none →
     searchToks pageFaultsPat (stripChars line.toList) = none →
     searchToks networkPat (stripChars line.toList) = none →
     searchToks barrierPassPat (stripChars line.toList) = none →
     searchToks partitionPat (stripChars line.toList) = none →
     searchToks completePat (stripChars line.toList) = none →
     searchToks finalCellsPat (stripChars line.toList) = none →
     parse_line line = .ok none) ∧
    (∀ msg, parse_line line = .error msg →
      (searchToks networkPat (stripChars line.toList)).isSome = true) := by
  refine ⟨?_, ?_, ?_⟩
  · intro h
    rw [parse_line_eq]
    unfold classifySpec
    rw [if_pos h]
  · intro h1 h2 h3 h4 h5 h6 h7
    rw [parse_line_eq]
    unfold classifySpec
    by_cases hemp : stripChars line.toList = []
    · rw [if_pos hemp]
    · rw [if_neg hemp]
      refine classifyFirst_none ?_
      intro m hmem
      have h1' : searchToks generationPat (stripChars line.data) = none := h1
      have h2' : searchToks pageFaultsPat (stripChars line.data) = none := h2
      have h3' : searchToks networkPat (stripChars line.data) = none := h3
      have h4' : searchToks barrierPassPat (stripChars line.data) = none := h4
      have h5' : searchToks partitionPat (stripChars line.data) = none := h5
      have h6' : searchToks completePat (stripChars line.data) = none := h6
      have h7' : searchToks finalCellsPat (stripChars line.data) = none := h7
      simp only [codeMatchers, List.mem_cons, List.not_mem_nil, or_false] at hmem
      rcases hmem with rfl | rfl | rfl | rfl | rfl | rfl | rfl
      · simp [tryGeneration, h1, h1']
      · simp [tryPageFaults, h2, h2']
      · simp [tryNetwork, h3, h3']
      · simp [tryBarrierPass, h4, h4']
      · simp [tryPartition, h5, h5']
      · simp [tryComplete, h6, h6']
      · simp [tryFinalCells, h7, h7']
  · intro msg h
    rw [parse_line_eq] at h
    unfold classifySpec at h
    by_cases hemp : stripChars line.toList = []
    · rw [if_pos hemp] at h
      exact absurd h (by simp)
    · rw [if_neg hemp] at h
      obtain ⟨m, hmem, hm⟩ := classifyFirst_error h
      exact matcher_error_is_network hmem hm

/-- Witness for C1 (amended) at a concrete input: a line matching no
pattern classifies to no event. -/
theorem c1_amended_total_except_network_float_witness :
    parse_line "[Node 3] hello world" = .ok none :=
  (c1_amended_total_except_network_float "[Node 3] hello world").2.1
    (by decide) (by decide) (by decide) (by decide) (by decide) (by decide) (by decide)

/-- C2 fails as stated: `_read_output` keys the generation counter by the
drain task's `node_id` argument (line 294), not by the event's parsed
`sourceNode`.  A drain task for node 1 reading the line
`"[Node 0] Generation 5: 10 live cells in partition"` (sourceNode 0,
generation 5) leaves `current_generation[0]` unset — in particular not 5 —
and writes `current_generation[1] = 5`. -/
theorem c2_counterexample_keyed_by_event_source :
    dictGet (processLine 1 "[Node 0] Generation 5: 10 live cells in partition"
      { initState with running := true }).current_generation 0 ≠ some 5 ∧
    dictGet (processLine 1 "[Node 0] Generation 5: 10 live cells in partition"
      { initState with running := true }).current_generation 0 = none ∧
    dictGet (processLine 1 "[Node 0] Generation 5: 10 live cells in partition"
      { initState with running := true }).current_generation 1 = some 5 := by
  refine ⟨by decide, by decide, by decide⟩

/-- C2 amended: for every line drained by the task of node `nid` that
classifies to a Generation event, the updated counter is the one keyed by
the drain task's own `nid` — `current_generation[nid]` becomes the event's
generation value — and every other node's entry, the event's `sourceNode`
included when it differs from `nid`, is untouched. -/
theorem c2_amended_generation_keyed_by_drain_node (nid : Nat) (line : String)
    (s : MonitorState) (e : ProcessEvent) (g lc : Nat)
    (hrun : s.running = true)
    (hp : parse_line line = .ok (some e))
    (ht : e.event_type = .GENERATION)
    (hd : e.data = .generation g lc) :
    dictGet (processLine nid line s).current_generation nid = some g ∧
    ∀ n, n ≠ nid → dictGet (processLine nid line s).current_generation n =
      dictGet s.current_generation n := by
  obtain ⟨et, en, ed⟩ := e
  have ht' : et = .GENERATION := ht
  have hd' : ed = .generation g lc := hd
  subst ht'
  subst hd'
  unfold processLine
  rw [hrun, hp]
  exact ⟨dictGet_insert_self _ _ _, fun n hn => dictGet_insert_ne _ _ hn⟩

/-- Witness for C2 (amended) at a concrete input. -/
theorem c2_amended_generation_keyed_by_drain_node_witness :
    dictGet (processLine 1 "[Node 0] Generation 5: 10 live cells in partition"
      { initState with running := true }).current_generation 1 = some 5 :=
  (c2_amended_generation_keyed_by_drain_node 1
    "[Node 0] Generation 5: 10 live cells in partition"
    { initState with running := true } ⟨.GENERATION, 0, .generation 5 10⟩ 5 10
    rfl (by decide) rfl rfl).1

/-- C3 fails as stated: `_read_output` writes `partition_info[node_id]`
unconditionally on every Init event (lines 296-304); there is no
if-not-already-set guard.  After Init events for rows `[0, 50)` and then
rows `[10, 60)` on the same node, the stored partition has changed to
`(10, 60)` rather than remaining `(0, 50)`. -/
theorem c3_counterexample_partition_not_write_once :
    dictGet (processLine 0 "[Node 0] Partition: rows [0, 50)"
      { initState with running := true }).partition_info 0 = some (0, 50) ∧
    dictGet (processLine 0 "[Node 0] Partition: rows [10, 60)"
      (processLine 0 "[Node 0] Partition: rows [0, 50)"
        { initState with running := true })).partition_info 0 = some (10, 60) ∧
    dictGet (processLine 0 "[Node 0] Partition: rows [10, 60)"
      (processLine 0 "[Node 0] Partition: rows [0, 50)"
        { initState with running := true })).partition_info 0 ≠
      dictGet (processLine 0 "[Node 0] Partition: rows [0, 50)"
        { initState with running := true }).partition_info 0 := by
  refine ⟨by decide, by decide, by decide⟩

/-- C3 amended: every Init event carrying row-range data drained by the
task of node `nid` writes `partition_info[nid] = (startRow, endRow)`,
overwriting any previously stored value (last write wins, not set-once);
other nodes' entries are untouched. -/
theorem c3_amended_partition_last_write_wins (nid : Nat) (line : String)
    (s : MonitorState) (e : ProcessEvent) (a b : Nat)
    (hrun : s.running = true)
    (hp : parse_line line = .ok (some e))
    (ht : e.event_type = .INIT)
    (hd : e.data = .init a b) :
    dictGet (processLine nid line s).partition_info nid = some (a, b) ∧
    ∀ n, n ≠ nid → dictGet (processLine nid line s).partition_info n =
      dictGet s.partition_info n := by
  obtain ⟨et, en, ed⟩ := e
  have ht' : et = .INIT := ht
  have hd' : ed = .init a b := hd
  subst ht'
  subst hd'
  unfold processLine
  rw [hrun, hp]
  exact ⟨dictGet_insert_self _ _ _, fun n hn => dictGet_insert_ne _ _ hn⟩

/-- Witness for C3 (amended) at a concrete input. -/
theorem c3_amended_partition_last_write_wins_witness :
    dictGet (processLine 0 "[Node 0] Partition: rows [0, 50)"
      { initState with running := true }).partition_info 0 = some (0, 50) :=
  (c3_amended_partition_last_write_wins 0 "[Node 0] Partition: rows [0, 50)"
    { initState with running := true } ⟨.INIT, 0, .init 0 50⟩ 0 50
    rfl (by decide) rfl rfl).1

/-- C5: `get_current_generation` returns 0 when no node has reported a
generation, and otherwise the minimum over all tracked nodes'
last-generation values (it is a lower bound attained by some tracked
node); concretely, after node 0 reports generation 5 and node 1 reports
generation 3 it returns 3.  Being a total function, it never throws. -/
theorem c5_minimum_generation (s : MonitorState) :
    (s.current_generation = [] → get_current_generation s = 0) ∧
    (∀ np ∈ s.current_generation, get_current_generation s ≤ np.2) ∧
    (s.current_generation ≠ [] →
      ∃ np ∈ s.current_generation, get_current_generation s = np.2) ∧
    get_current_generation
      (processLine 1 "[Node 1] Generation 3: 8 live cells in partition"
        (processLine 0 "[Node 0] Generation 5: 10 live cells in partition"
          { initState with running := true })) = 3 := by
  refine ⟨?_, ?_, ?_, by decide⟩
  · intro h
    simp [get_current_generation, dictValues, h]
  · intro np hmem
    rcases hcg : s.current_generation with _ | ⟨kv, rest⟩
    · rw [hcg] at hmem; cases hmem
    · rw [hcg] at hmem
      unfold get_current_generation
      rw [hcg]
      simp only [dictValues, List.map_cons]
      rcases List.mem_cons.mp hmem with rfl | h'
      · exact foldl_min_le_init _ _
      · exact foldl_min_le_mem _ _ _ (List.mem_map_of_mem Prod.snd h')
  · intro hne
    rcases hcg : s.current_generation with _ | ⟨kv, rest⟩
    · exact absurd hcg hne
    · unfold get_current_generation
      rw [hcg]
      simp only [dictValues, List.map_cons]
      rcases foldl_min_eq_init_or_mem (rest.map Prod.snd) kv.2 with h | h
      · exact ⟨kv, by simp [hcg], h⟩
      · obtain ⟨np, hnp, hval⟩ := List.mem_map.mp h
        exact ⟨np, by simp [hcg, hnp], hval.symm⟩

/-- Witness for C5 at a concrete input: a fresh tracker returns 0. -/
theorem c5_minimum_generation_witness : get_current_generation initState = 0 :=
  (c5_minimum_generation initState).1 rfl

/-! ## Lemmas about `start` and `stop` -/

lemma stopActions_terminate_mem {s : MonitorState} {n : Nat} {p : ProcessHandle}
    (hmem : (n, p) ∈ s.processes) (halive : p.alive = true) :
    StopAction.terminate n ∈ stopActions s := by
  unfold stopActions
  rw [List.mem_flatMap]
  refine ⟨(n, p), hmem, ?_⟩
  cases hr : p.responds <;> simp [halive, hr]

lemma startWorkers_fail_processes (cfg : StartConfig) (l : List Nat) (s : MonitorState)
    (h : (startWorkers cfg l s).1 = false) :
    (startWorkers cfg l s).2.1.processes = [] ∧
    (startWorkers cfg l s).2.1.output_threads = [] ∧
    (startWorkers cfg l s).2.1.running = false := by
  induction l generalizing s with
  | nil => simp [startWorkers] at h
  | cons nid rest ih =>
      unfold startWorkers at h ⊢
      by_cases hf : cfg.spawnFails nid
      · simp only [hf, if_true, if_pos]
        exact ⟨rfl, rfl, rfl⟩
      · rw [if_neg hf] at h ⊢
        exact ih _ h

lemma startWorkers_fail_teardown (cfg : StartConfig) (l : List Nat) (s : MonitorState)
    (hAlive : ∀ np ∈ s.processes, np.2.alive = true)
    (h : (startWorkers cfg l s).1 = false) :
    (∀ n p, (n, p) ∈ s.processes → StopAction.terminate n ∈ (startWorkers cfg l s).2.2) ∧
    (∀ n ∈ l.takeWhile (fun m => !cfg.spawnFails m),
      StopAction.terminate n ∈ (startWorkers cfg l s).2.2) := by
  induction l generalizing s with
  | nil => simp [startWorkers] at h
  | cons nid rest ih =>
      by_cases hf : cfg.spawnFails nid
      · constructor
        · intro n p hmem
          unfold startWorkers
          rw [if_pos hf]
          exact stopActions_terminate_mem hmem (hAlive _ hmem)
        · intro n hn
          rw [List.takeWhile_cons] at hn
          simp [hf] at hn
      · have hAlive' : ∀ np ∈ dictInsert s.processes nid (spawnHandle cfg nid),
            np.2.alive = true := by
          intro np hnp
          rcases mem_dictInsert hnp with h' | rfl
          · exact hAlive _ h'
          · rfl
        have h' : (startWorkers cfg rest
            { s with processes := dictInsert s.processes nid (spawnHandle cfg nid),
                     output_threads := s.output_threads ++ [()] }).1 = false := by
          unfold startWorkers at h
          rwa [if_neg hf] at h
        obtain ⟨ihA, ihB⟩ := ih _ hAlive' h'
        have hgoal : startWorkers cfg (nid :: rest) s = startWorkers cfg rest
            { s with processes := dictInsert s.processes nid (spawnHandle cfg nid),
                     output_threads := s.output_threads ++ [()] } := by
          unfold startWorkers
          rw [if_neg hf]
          cases rest <;> rfl
        rw [hgoal]
        constructor
        · intro n p hmem
          obtain ⟨p', hp'⟩ := dictInsert_mem_keys nid (spawnHandle cfg nid) hmem
          exact ihA n p' hp'
        · intro n hn
          rw [List.takeWhile_cons] at hn
          simp only [hf, Bool.not_false, if_true] at hn
          rcases List.mem_cons.mp hn with rfl | hn'
          · obtain ⟨p', hp'⟩ := dictInsert_key_mem s.processes n (spawnHandle cfg n)
            exact ihA n p' hp'
          · exact ihB n hn'

/-- C7: `stop()` is idempotent and always clears the bookkeeping: after
any `stop()` the process-handle and drain-thread collections are empty,
the running flag is down (Idle), a second `stop()` performs no OS action
(its terminate/kill action list is empty) and leaves the state exactly as
the first `stop()` did. -/
theorem c7_stop_idempotent_clears_bookkeeping (s : MonitorState) :
    stop (stop s) = stop s ∧ stopActions (stop s) = [] ∧ isIdle (stop s) :=
  ⟨rfl, rfl, rfl, rfl, rfl⟩

/-- C10: `stop()` modifies only the running flag and the process/thread
collections: the event queue and the derived per-node state keep their
values, so events already published are still retrievable via
`get_event` afterwards and `get_current_generation` returns the same
minimum after `stop()` as before it. -/
theorem c10_stop_frame_events_and_derived_state (s : MonitorState) :
    (stop s).event_queue = s.event_queue ∧
    (stop s).current_generation = s.current_generation ∧
    (stop s).partition_info = s.partition_info ∧
    get_current_generation (stop s) = get_current_generation s ∧
    (get_event (stop s)).1 = (get_event s).1 ∧
    (get_event (stop s)).2.event_queue = (get_event s).2.event_queue := by
  refine ⟨rfl, rfl, rfl, rfl, ?_, ?_⟩ <;>
    cases hq : s.event_queue <;> simp [get_event, stop, hq]

/-- C6: `start()` fails atomically.  With a missing executable it returns
failure immediately, leaving the state untouched and launching nothing;
with any spawn exception, `stop()` tears everything down before failure
is returned, so on any failed `start()` from a fresh state no process
handles remain in the bookkeeping, and every process spawned before the
failing spawn received a terminate action. -/
theorem c6_start_fails_atomically (cfg : StartConfig) (s : MonitorState)
    (hempty : s.processes = []) :
    (cfg.exeExists = false → start cfg s = (false, s, [])) ∧
    ((start cfg s).1 = false → (start cfg s).2.1.processes = [] ∧
      hasLiveHandle (start cfg s).2.1 = false) ∧
    ((start cfg s).1 = false → cfg.exeExists = true →
      ∀ n ∈ spawnedNodes cfg, StopAction.terminate n ∈ (start cfg s).2.2) := by
  refine ⟨?_, ?_, ?_⟩
  · intro h
    unfold start
    rw [h]
    rfl
  · intro h
    rcases hexe : cfg.exeExists with _ | _
    · unfold start at h ⊢
      rw [hexe] at h ⊢
      refine ⟨hempty, ?_⟩
      simp [hasLiveHandle, hempty]
    · unfold start at h ⊢
      rw [hexe] at h ⊢
      by_cases hf0 : cfg.spawnFails 0
      · rw [if_pos hf0] at h ⊢
        exact ⟨rfl, rfl⟩
      · rw [if_neg hf0] at h ⊢
        obtain ⟨hp, _, _⟩ := startWorkers_fail_processes cfg _ _ h
        refine ⟨hp, ?_⟩
        simp [hasLiveHandle, hp]
  · intro h hexe
    unfold start at h ⊢
    rw [hexe] at h ⊢
    unfold spawnedNodes launchOrder
    by_cases hf0 : cfg.spawnFails 0
    · intro n hn
      rw [List.takeWhile_cons] at hn
      simp [hf0] at hn
    · rw [if_neg hf0] at h ⊢
      have hAlive : ∀ np ∈ dictInsert ({ s with running := true } : MonitorState).processes 0
          (spawnHandle cfg 0), np.2.alive = true := by
        intro np hnp
        rcases mem_dictInsert hnp with h' | rfl
        · rw [show ({ s with running := true } : MonitorState).processes = s.processes from rfl,
            hempty] at h'
          cases h'
        · rfl
      obtain ⟨tA, tB⟩ := startWorkers_fail_teardown cfg _ _ hAlive h
      intro n hn
      rw [List.takeWhile_cons] at hn
      simp only [hf0, Bool.not_false, if_true] at hn
      rcases List.mem_cons.mp hn with rfl | hn'
      · obtain ⟨p', hp'⟩ := dictInsert_key_mem
          ({ s with running := true } : MonitorState).processes 0 (spawnHandle cfg 0)
        exact tA 0 p' hp'
      · exact tB n hn'

/-- Witness for C6 at a concrete input: a missing executable makes
`start()` return failure with the fresh state unchanged. -/
theorem c6_start_fails_atomically_witness :
    start ⟨false, 2, fun _ => false, fun _ => true⟩ initState = (false, initState, []) :=
  (c6_start_fails_atomically ⟨false, 2, fun _ => false, fun _ => true⟩ initState rfl).1 rfl
